import Mathlib

/-!
Verification of the agent-configuration store and admin controller of
`livekit-dashboard` (`app/services/agent_service.py`, `app/routes/agents.py`).

The store persists a list of agent records as a JSON document
`{"agents": [...]}`.  We embed the record model (`AgentConfig`), the CRUD
operations of `AgentService`, the raw JSON level of `_load_agents` /
`_save_agents` / `from_dict`, and the guard logic of the `test_agent` route.

Conventions of the embedding:
- A stored record dict written by this module always has exactly the ten
  fields of `AgentConfig.to_dict`, with string/bool values; the typed level
  (`Store := List AgentConfig`) models such well-formed stored dicts.
- `uuid.uuid4()` draws are modelled by explicit `fresh : String` parameters
  (a uuid4 string is never empty; theorems that need this take `fresh ≠ ""`).
- Python exceptions are modelled by `Except PyError`.
-/

/-- The agent configuration model (`AgentConfig` in `agent_service.py`):
ten fields, in source order. -/
structure AgentConfig where
  id : String
  name : String
  enabled : Bool
  model_provider : String
  model : String
  voice : String
  first_message : String
  noise_cancellation : Bool
  n8n_mcp_url : String
  metadata : String
deriving DecidableEq, Repr

/-- `AgentConfig.__init__`: all keyword arguments in source order; `oid = none`
models both an absent `id` kwarg (whose Python default is `None`) and an
explicit `id=None`.  The source sets `self.id = id or str(uuid.uuid4())`: a
`None` or empty-string (falsy) id is replaced by a fresh uuid, modelled by
the `fresh` parameter. -/
def AgentConfig.init (fresh : String) (oid : Option String) (name : String)
    (enabled : Bool) (model_provider : String) (model : String) (voice : String)
    (first_message : String) (noise_cancellation : Bool) (n8n_mcp_url : String)
    (metadata : String) : AgentConfig :=
  { id := match oid with
          | none => fresh
          | some s => if s = "" then fresh else s
    name := name
    enabled := enabled
    model_provider := model_provider
    model := model
    voice := voice
    first_message := first_message
    noise_cancellation := noise_cancellation
    n8n_mcp_url := n8n_mcp_url
    metadata := metadata }

/-- `AgentConfig.from_dict(data) = cls(**data)` applied to a well-formed
stored dict: every field of the dict is forwarded as the matching keyword
argument of `__init__`. -/
def AgentConfig.from_dict (fresh : String) (d : AgentConfig) : AgentConfig :=
  AgentConfig.init fresh (some d.id) d.name d.enabled d.model_provider d.model
    d.voice d.first_message d.noise_cancellation d.n8n_mcp_url d.metadata

/-- The list of stored record dicts held in the `agents.json` file
(well-formed level). -/
abbrev Store := List AgentConfig

/-- The keyword arguments accepted by `AgentService.update_agent(agent_id,
**kwargs)` as passed by its caller (the update route): one optional value per
mutable field; `none` models an absent/`None` value, which the update loop
skips (`if value is not None`). -/
structure UpdateKwargs where
  name : Option String
  enabled : Option Bool
  model_provider : Option String
  model : Option String
  voice : Option String
  first_message : Option String
  noise_cancellation : Option Bool
  n8n_mcp_url : Option String
  metadata : Option String
deriving DecidableEq, Repr

/-- The update loop of `update_agent`:
`for key, value in kwargs.items(): if value is not None: agent_data[key] = value`.
Fields with a supplied (non-`None`) value are overwritten, the rest (and the
`id`, which the caller never passes) are kept. -/
def applyKwargs (d : AgentConfig) (kw : UpdateKwargs) : AgentConfig :=
  { id := d.id
    name := kw.name.getD d.name
    enabled := kw.enabled.getD d.enabled
    model_provider := kw.model_provider.getD d.model_provider
    model := kw.model.getD d.model
    voice := kw.voice.getD d.voice
    first_message := kw.first_message.getD d.first_message
    noise_cancellation := kw.noise_cancellation.getD d.noise_cancellation
    n8n_mcp_url := kw.n8n_mcp_url.getD d.n8n_mcp_url
    metadata := kw.metadata.getD d.metadata }

/-- `AgentService.get_agent`: linear scan of the loaded list, first record
whose `"id"` entry equals `agent_id` is returned through `from_dict`. -/
def get_agent (fresh : String) (aid : String) : Store → Option AgentConfig
  | [] => none
  | d :: rest =>
    if d.id = aid then some (AgentConfig.from_dict fresh d)
    else get_agent fresh aid rest

/-- `AgentService.create_agent`: loads the list, appends `config.to_dict()`,
saves, returns `config` unchanged.  Result: (returned value, new file
contents, whether the file was written). -/
def create_agent (store : Store) (config : AgentConfig) :
    AgentConfig × Store × Bool :=
  (config, store ++ [config], true)

/-- `AgentService.update_agent`: scans for the first record whose `"id"`
equals `agent_id`; overwrites its provided fields in place, saves, and
returns `from_dict` of the updated dict; if no record matches, returns `None`
and does not write.  Result: (returned value, new file contents, whether the
file was written). -/
def update_agent (fresh : String) (aid : String) (kw : UpdateKwargs) :
    Store → Option AgentConfig × Store × Bool
  | [] => (none, [], false)
  | d :: rest =>
    if d.id = aid then
      let d' := applyKwargs d kw
      (some (AgentConfig.from_dict fresh d'), d' :: rest, true)
    else
      let r := update_agent fresh aid kw rest
      (r.1, d :: r.2.1, r.2.2)

/-- `AgentService.delete_agent`: filters out every record whose `"id"` equals
`agent_id`; saves only when the list got shorter; returns whether a removal
occurred.  Result: (returned bool, new file contents, whether the file was
written). -/
def delete_agent (aid : String) (store : Store) : Bool × Store × Bool :=
  let kept := store.filter (fun a => a.id ≠ aid)
  if kept.length < store.length then (true, kept, true)
  else (false, store, false)

/-- `AgentService.toggle_agent`: first record whose `"id"` equals `agent_id`
gets `enabled` replaced by `not agent_data.get("enabled", True)`; saves;
returns `from_dict` of the updated dict, or `None` when no record matches. -/
def toggle_agent (fresh : String) (aid : String) :
    Store → Option AgentConfig × Store × Bool
  | [] => (none, [], false)
  | d :: rest =>
    if d.id = aid then
      let d' := { d with enabled := !d.enabled }
      (some (AgentConfig.from_dict fresh d'), d' :: rest, true)
    else
      let r := toggle_agent fresh aid rest
      (r.1, d :: r.2.1, r.2.2)

/-! ## Raw JSON level

`_load_agents` parses arbitrary JSON; the lenient-read policy and the shape
of the persisted document live at this level. -/

/-- JSON values, as produced by `json.load`. -/
inductive Json where
  | null
  | bool (b : Bool)
  | num (n : Int)
  | str (s : String)
  | arr (xs : List Json)
  | obj (kvs : List (String × Json))

/-- The possible states of the `agents.json` file: absent, present with
syntactically invalid content (`json.load` raises `JSONDecodeError`), or
present with some parsed JSON value. -/
inductive FileState where
  | missing
  | invalid
  | content (j : Json)

/-- Python exceptions that the embedded code can raise (exceptions that are
always caught, `FileNotFoundError` and `JSONDecodeError`, never escape and
need no constructor). -/
inductive PyError where
  | attributeError
  | typeError
deriving DecidableEq, Repr

/-- Key lookup in a parsed JSON object (`dict.get(key)`; a parsed dict has
distinct keys). -/
def jsonLookup (key : String) : List (String × Json) → Option Json
  | [] => none
  | (k, v) :: rest => if k = key then some v else jsonLookup key rest

/-- `AgentService._load_agents`: on a missing file (`FileNotFoundError`) or
invalid syntax (`JSONDecodeError`) it returns `[]`; on a parsed dict it
returns `data.get("agents", [])` — whatever value that holds; on any other
parsed value, `data.get` raises `AttributeError`, which the `except` clause
does not catch. -/
def load_agents : FileState → Except PyError Json
  | .missing => .ok (.arr [])
  | .invalid => .ok (.arr [])
  | .content (.obj kvs) => .ok ((jsonLookup "agents" kvs).getD (.arr []))
  | .content _ => .error .attributeError

/-- Python iteration over the value `_load_agents` returned (`for a in
agents` / a list comprehension): lists yield elements, dicts yield keys,
strings yield one-character strings, any other value raises `TypeError`. -/
def pyIter : Json → Except PyError (List Json)
  | .arr xs => .ok xs
  | .obj kvs => .ok (kvs.map (fun kv => .str kv.1))
  | .str s => .ok (s.data.map (fun c => .str (String.singleton c)))
  | _ => .error .typeError

/-- `agent_data.get(key)` on a raw element: only a dict has `.get`. -/
def pyDictGet (key : String) : Json → Except PyError (Option Json)
  | .obj kvs => .ok (jsonLookup key kvs)
  | _ => .error .attributeError

/-- The field names of the stored record dict, in `to_dict` order. -/
def fieldNames : List String :=
  ["id", "name", "enabled", "model_provider", "model", "voice",
   "first_message", "noise_cancellation", "n8n_mcp_url", "metadata"]

/-- Read an optional string field of a raw record dict (a missing key falls
back to the `__init__` default). -/
def expectStr (kvs : List (String × Json)) (key : String) (dflt : String) :
    Except PyError String :=
  match jsonLookup key kvs with
  | none => .ok dflt
  | some (.str s) => .ok s
  | some _ => .error .typeError

/-- Read an optional boolean field of a raw record dict. -/
def expectBool (kvs : List (String × Json)) (key : String) (dflt : Bool) :
    Except PyError Bool :=
  match jsonLookup key kvs with
  | none => .ok dflt
  | some (.bool b) => .ok b
  | some _ => .error .typeError

/-- `AgentConfig.from_dict(data) = cls(**data)` on a raw JSON value: `data`
must be a dict whose keys are all `__init__` keyword names (an unknown key
or a non-dict raises `TypeError`); missing keys take the `__init__`
defaults; an `id` of `null` behaves like the `None` default.  Field values
written by this module are always of the declared string/bool types, which
is the shape read here. -/
def AgentConfig.ofJson (fresh : String) : Json → Except PyError AgentConfig
  | .obj kvs =>
    if (kvs.map Prod.fst).all (fun k => fieldNames.contains k) then do
      let oid ← (match jsonLookup "id" kvs with
        | none => .ok none
        | some .null => .ok none
        | some (.str s) => .ok (some s)
        | some _ => .error PyError.typeError)
      let nm ← expectStr kvs "name" ""
      let en ← expectBool kvs "enabled" true
      let mp ← expectStr kvs "model_provider" "google"
      let mo ← expectStr kvs "model" "gemini-2.0-flash-exp"
      let vo ← expectStr kvs "voice" "Puck"
      let fm ← expectStr kvs "first_message" "Hello! How can I help you today?"
      let nc ← expectBool kvs "noise_cancellation" true
      let n8 ← expectStr kvs "n8n_mcp_url" ""
      let md ← expectStr kvs "metadata" ""
      .ok (AgentConfig.init fresh oid nm en mp mo vo fm nc n8 md)
  else .error .typeError
  | _ => .error .typeError

/-- `AgentConfig.to_dict`: the stored record dict, keys in source order. -/
def AgentConfig.to_dict (a : AgentConfig) : Json :=
  .obj [("id", .str a.id), ("name", .str a.name), ("enabled", .bool a.enabled),
        ("model_provider", .str a.model_provider), ("model", .str a.model),
        ("voice", .str a.voice), ("first_message", .str a.first_message),
        ("noise_cancellation", .bool a.noise_cancellation),
        ("n8n_mcp_url", .str a.n8n_mcp_url), ("metadata", .str a.metadata)]

/-- `AgentService._save_agents(agents)`: writes the document
`{"agents": agents}` to the file. -/
def save_agents (store : Store) : FileState :=
  .content (.obj [("agents", .arr (store.map AgentConfig.to_dict))])

/-- `[AgentConfig.from_dict(a) for a in agents_data]`, with an independent
uuid draw `fresh i` available to each `from_dict` call. -/
def mapOfJson (fresh : Nat → String) : Nat → List Json → Except PyError (List AgentConfig)
  | _, [] => .ok []
  | i, j :: rest => do
    let a ← AgentConfig.ofJson (fresh i) j
    let rest' ← mapOfJson fresh (i + 1) rest
    .ok (a :: rest')

/-- `AgentService.list_agents` over a file state: load the raw value,
iterate it, convert each element with `from_dict`. -/
def list_agents_file (fresh : Nat → String) (fs : FileState) :
    Except PyError (List AgentConfig) := do
  let v ← load_agents fs
  let xs ← pyIter v
  mapOfJson fresh 0 xs

/-- The scan loop of `get_agent` over raw elements:
`if agent_data.get("id") == agent_id` (a non-string or missing `"id"` never
equals the string `agent_id`); the first match is returned via `from_dict`. -/
def findAgent (fresh : String) (aid : String) :
    List Json → Except PyError (Option AgentConfig)
  | [] => .ok none
  | j :: rest => do
    let v ← pyDictGet "id" j
    match v with
    | some (.str s) =>
      if s = aid then do
        let a ← AgentConfig.ofJson fresh j
        .ok (some a)
      else findAgent fresh aid rest
    | _ => findAgent fresh aid rest

/-- `AgentService.get_agent` over a file state. -/
def get_agent_file (fresh : String) (aid : String) (fs : FileState) :
    Except PyError (Option AgentConfig) := do
  let v ← load_agents fs
  let xs ← pyIter v
  findAgent fresh aid xs

/-! ## Operation sequences

For the id-uniqueness invariant we fold arbitrary sequences of mutating
store operations.  The saved list never depends on the uuid draw of the
returned `from_dict` value (the dict is saved before `from_dict` is
called), so `applyOp` needs no `fresh` parameter. -/

/-- One mutating `AgentService` call, as it affects the stored list. -/
inductive Op where
  | create (c : AgentConfig)
  | update (aid : String) (kw : UpdateKwargs)
  | delete (aid : String)
  | toggle (aid : String)
deriving DecidableEq, Repr

/-- The file contents after one mutating call. -/
def applyOp (store : Store) : Op → Store
  | .create c => (create_agent store c).2.1
  | .update aid kw => (update_agent "" aid kw store).2.1
  | .delete aid => (delete_agent aid store).2.1
  | .toggle aid => (toggle_agent "" aid store).2.1

/-- The file contents after a sequence of mutating calls. -/
def applyOps (store : Store) (ops : List Op) : Store :=
  ops.foldl applyOp store

/-- A `create` is fresh for a store when its record's id is not already
present (guaranteed in the source by the controller's `uuid4` assignment,
not checked by `create_agent` itself). -/
def opFreshOk (store : Store) : Op → Bool
  | .create c => !((store.map AgentConfig.id).contains c.id)
  | _ => true

/-- Every `create` in the sequence is fresh for the store state at its point
of execution. -/
def opsFresh : Store → List Op → Bool
  | _, [] => true
  | s, op :: rest => opFreshOk s op && opsFresh (applyOp s op) rest

/-! ## Admin controller: the `test` route

`POST /agents/{agent_id}/test` (`test_agent` in `app/routes/agents.py`).
The external real-time client is an abstract collaborator; the embedding
counts how many calls the route makes to it. -/

/-- UTF-8 bytes of a character (what Python's percent-encoder operates on). -/
def utf8Bytes (c : Char) : List Nat :=
  let n := c.toNat
  if n < 128 then [n]
  else if n < 2048 then [192 + n / 64, 128 + n % 64]
  else if n < 65536 then [224 + n / 4096, 128 + (n / 64) % 64, 128 + n % 64]
  else [240 + n / 262144, 128 + (n / 4096) % 64, 128 + (n / 64) % 64,
        128 + n % 64]

/-- Uppercase hexadecimal digit. -/
def hexDigit (n : Nat) : Char :=
  if n < 10 then Char.ofNat (48 + n) else Char.ofNat (55 + n)

/-- One byte under `urllib.parse.quote`: ASCII letters, digits, `_.-~` and
the default safe character `/` pass through; everything else becomes
`%XX`. -/
def pyQuoteByte (n : Nat) : String :=
  if (65 ≤ n ∧ n ≤ 90) ∨ (97 ≤ n ∧ n ≤ 122) ∨ (48 ≤ n ∧ n ≤ 57) ∨
      n = 45 ∨ n = 46 ∨ n = 95 ∨ n = 126 ∨ n = 47 then
    String.singleton (Char.ofNat n)
  else
    "%" ++ String.singleton (hexDigit (n / 16)) ++
      String.singleton (hexDigit (n % 16))

/-- `urllib.parse.quote(s)` with the default safe set. -/
def pyQuote (s : String) : String :=
  String.join (s.data.map (fun c => String.join ((utf8Bytes c).map pyQuoteByte)))

/-- The flash-redirect URL built by the routes:
`/agents?flash_message={quote(msg)}&flash_type={type}`. -/
def flashUrl (msg : String) (flashType : String) : String :=
  "/agents?flash_message=" ++ pyQuote msg ++ "&flash_type=" ++ flashType

/-- The external real-time client collaborator (`LiveKitClient`): room
creation (name, empty timeout, max participants, metadata) and token
minting (room, identity, display name, ttl). -/
structure LKClient where
  create_room : String → Nat → Nat → String → String
  generate_token : String → String → String → Nat → String

/-- What the `test` route responds with: a 303 flash redirect or the
rendered test page. -/
inductive TestResponse where
  | redirect (url : String)
  | page (roomName : String) (token : String)
deriving DecidableEq, Repr

/-- The body of the `test_agent` route after the CSRF check: fetch by id;
absent → "Agent not found" error redirect; disabled → "Agent is disabled.
Enable it first to test." error redirect; otherwise create a test room and
mint a token (two external-client calls) and render the test page.
`roomSuffix` models `uuid.uuid4().hex[:8]`.  The second component counts
the calls made to the external client. -/
def test_agent_route (fresh : String) (store : Store) (aid : String)
    (roomSuffix : String) (lk : LKClient) : TestResponse × Nat :=
  match get_agent fresh aid store with
  | none => (.redirect (flashUrl "Agent not found" "error"), 0)
  | some agent =>
    if !agent.enabled then
      (.redirect (flashUrl "Agent is disabled. Enable it first to test." "error"), 0)
    else
      let roomName := "agent-test-" ++ roomSuffix
      let _room := lk.create_room roomName 300 2
        ("\x7b\"test_agent\": \"" ++ agent.name ++ "\"\x7d")
      let token := lk.generate_token roomName "test-user" "Test User" 300
      (.page roomName token, 2)

/-! ## Basic lemmas about the operations -/

lemma applyKwargs_id (d : AgentConfig) (kw : UpdateKwargs) :
    (applyKwargs d kw).id = d.id := rfl

lemma from_dict_id (fresh : String) (d : AgentConfig) :
    (AgentConfig.from_dict fresh d).id = if d.id = "" then fresh else d.id := rfl

lemma from_dict_of_id_ne (fresh : String) (d : AgentConfig) (h : d.id ≠ "") :
    AgentConfig.from_dict fresh d = d := by
  simp [AgentConfig.from_dict, AgentConfig.init, h]

lemma get_agent_nil (fresh aid : String) : get_agent fresh aid [] = none := rfl

lemma get_agent_no_match (fresh aid : String) (store : Store)
    (h : ∀ r ∈ store, r.id ≠ aid) : get_agent fresh aid store = none := by
  induction store with
  | nil => rfl
  | cons d rest ih =>
    have hd : d.id ≠ aid := h d (by simp)
    simp only [get_agent, if_neg hd]
    exact ih (fun r hr => h r (by simp [hr]))

lemma get_agent_match (fresh aid : String) (pre : Store) (x : AgentConfig)
    (post : Store) (hpre : ∀ y ∈ pre, y.id ≠ aid) (hx : x.id = aid) :
    get_agent fresh aid (pre ++ x :: post) =
      some (AgentConfig.from_dict fresh x) := by
  induction pre with
  | nil => simp [get_agent, hx]
  | cons y ys ih =>
    have hy : y.id ≠ aid := hpre y (by simp)
    simp only [List.cons_append, get_agent, if_neg hy]
    exact ih (fun z hz => hpre z (by simp [hz]))

lemma update_agent_no_match (fresh aid : String) (kw : UpdateKwargs)
    (store : Store) (h : ∀ r ∈ store, r.id ≠ aid) :
    update_agent fresh aid kw store = (none, store, false) := by
  induction store with
  | nil => rfl
  | cons d rest ih =>
    have hd : d.id ≠ aid := h d (by simp)
    have := ih (fun r hr => h r (by simp [hr]))
    simp [update_agent, if_neg hd, this]

lemma update_agent_match (fresh aid : String) (kw : UpdateKwargs) (pre : Store)
    (x : AgentConfig) (post : Store) (hpre : ∀ y ∈ pre, y.id ≠ aid)
    (hx : x.id = aid) :
    update_agent fresh aid kw (pre ++ x :: post) =
      (some (AgentConfig.from_dict fresh (applyKwargs x kw)),
       pre ++ applyKwargs x kw :: post, true) := by
  induction pre with
  | nil => simp [update_agent, hx]
  | cons y ys ih =>
    have hy : y.id ≠ aid := hpre y (by simp)
    have := ih (fun z hz => hpre z (by simp [hz]))
    simp [update_agent, if_neg hy, this]

lemma toggle_agent_no_match (fresh aid : String) (store : Store)
    (h : ∀ r ∈ store, r.id ≠ aid) :
    toggle_agent fresh aid store = (none, store, false) := by
  induction store with
  | nil => rfl
  | cons d rest ih =>
    have hd : d.id ≠ aid := h d (by simp)
    have := ih (fun r hr => h r (by simp [hr]))
    simp [toggle_agent, if_neg hd, this]

lemma toggle_agent_match (fresh aid : String) (pre : Store) (x : AgentConfig)
    (post : Store) (hpre : ∀ y ∈ pre, y.id ≠ aid) (hx : x.id = aid) :
    toggle_agent fresh aid (pre ++ x :: post) =
      (some (AgentConfig.from_dict fresh { x with enabled := !x.enabled }),
       pre ++ { x with enabled := !x.enabled } :: post, true) := by
  induction pre with
  | nil => simp [toggle_agent, hx]
  | cons y ys ih =>
    have hy : y.id ≠ aid := hpre y (by simp)
    have := ih (fun z hz => hpre z (by simp [hz]))
    simp [toggle_agent, if_neg hy, this]

lemma delete_agent_of_mem (aid : String) (store : Store)
    (h : ∃ r ∈ store, r.id = aid) :
    delete_agent aid store =
      (true, store.filter (fun a => a.id ≠ aid), true) := by
  have hlt : (store.filter (fun a => a.id ≠ aid)).length < store.length := by
    rcases Nat.lt_or_ge (store.filter (fun a => a.id ≠ aid)).length store.length
      with hlt | hge
    · exact hlt
    · exfalso
      have heq : (store.filter (fun a => a.id ≠ aid)).length = store.length :=
        Nat.le_antisymm (List.length_filter_le _ _) hge
      rw [List.filter_length_eq_length] at heq
      rcases h with ⟨r, hr, hid⟩
      have := heq r hr
      simp [hid] at this
  have hlt' : (store.filter (fun a => !decide (a.id = aid))).length <
      store.length := by simpa [ne_eq, decide_not] using hlt
  simp [delete_agent, hlt']

lemma delete_agent_of_not_mem (aid : String) (store : Store)
    (h : ∀ r ∈ store, r.id ≠ aid) :
    delete_agent aid store = (false, store, false) := by
  have heq : store.filter (fun a => a.id ≠ aid) = store := by
    apply List.filter_eq_self.mpr
    intro a ha
    simpa using h a ha
  have heq' : store.filter (fun a => !decide (a.id = aid)) = store := by
    simpa [ne_eq, decide_not] using heq
  simp [delete_agent, heq']

/-! ## Round-trip lemmas between the typed and the raw JSON level -/

lemma ofJson_to_dict (fresh : String) (x : AgentConfig) :
    AgentConfig.ofJson fresh (AgentConfig.to_dict x) =
      .ok (AgentConfig.from_dict fresh x) := by
  simp [AgentConfig.ofJson, AgentConfig.to_dict, jsonLookup, expectStr,
    expectBool, AgentConfig.from_dict, fieldNames, bind, Except.bind]

lemma mapOfJson_to_dict (fresh : Nat → String) (i : Nat) (store : Store)
    (h : ∀ x ∈ store, x.id ≠ "") :
    mapOfJson fresh i (store.map AgentConfig.to_dict) = .ok store := by
  induction store generalizing i with
  | nil => rfl
  | cons x rest ih =>
    have hx : x.id ≠ "" := h x (by simp)
    have hrest := ih (i + 1) (fun y hy => h y (by simp [hy]))
    simp [mapOfJson, ofJson_to_dict, from_dict_of_id_ne _ _ hx, hrest,
      bind, Except.bind]

lemma list_agents_file_save (fresh : Nat → String) (store : Store)
    (h : ∀ x ∈ store, x.id ≠ "") :
    list_agents_file fresh (save_agents store) = .ok store := by
  simp [list_agents_file, save_agents, load_agents, jsonLookup, pyIter,
    mapOfJson_to_dict fresh 0 store h, bind, Except.bind]

lemma pyDictGet_to_dict_id (x : AgentConfig) :
    pyDictGet "id" (AgentConfig.to_dict x) = .ok (some (.str x.id)) := by
  simp [pyDictGet, AgentConfig.to_dict, jsonLookup]

lemma findAgent_match (fresh aid : String) (pre : Store) (x : AgentConfig)
    (post : Store) (hpre : ∀ y ∈ pre, y.id ≠ aid) (hx : x.id = aid) :
    findAgent fresh aid
        (pre.map AgentConfig.to_dict ++
          AgentConfig.to_dict x :: post.map AgentConfig.to_dict) =
      .ok (some (AgentConfig.from_dict fresh x)) := by
  induction pre with
  | nil =>
    simp [findAgent, pyDictGet_to_dict_id, hx, ofJson_to_dict,
      bind, Except.bind]
  | cons y ys ih =>
    have hy : y.id ≠ aid := hpre y (by simp)
    have hrec := ih (fun z hz => hpre z (by simp [hz]))
    simp only [List.map_cons, List.cons_append, findAgent,
      pyDictGet_to_dict_id, bind, Except.bind]
    simp only [if_neg hy]
    exact hrec

lemma get_agent_file_save (fresh aid : String) (pre : Store) (x : AgentConfig)
    (post : Store) (hpre : ∀ y ∈ pre, y.id ≠ aid) (hx : x.id = aid) :
    get_agent_file fresh aid (save_agents (pre ++ x :: post)) =
      .ok (some (AgentConfig.from_dict fresh x)) := by
  simp [get_agent_file, save_agents, load_agents, jsonLookup, pyIter,
    findAgent_match fresh aid pre x post hpre hx, bind, Except.bind]

/-! ## Preservation of the stored id sequence -/

lemma update_agent_ids (fresh aid : String) (kw : UpdateKwargs)
    (store : Store) :
    ((update_agent fresh aid kw store).2.1).map AgentConfig.id =
      store.map AgentConfig.id := by
  induction store with
  | nil => rfl
  | cons d rest ih =>
    by_cases hd : d.id = aid
    · simp [update_agent, hd, applyKwargs_id]
    · simp [update_agent, hd, ih]

lemma toggle_agent_ids (fresh aid : String) (store : Store) :
    ((toggle_agent fresh aid store).2.1).map AgentConfig.id =
      store.map AgentConfig.id := by
  induction store with
  | nil => rfl
  | cons d rest ih =>
    by_cases hd : d.id = aid
    · simp [toggle_agent, hd]
    · simp [toggle_agent, hd, ih]

lemma delete_agent_sublist (aid : String) (store : Store) :
    ((delete_agent aid store).2.1).Sublist store := by
  unfold delete_agent
  by_cases hlt :
      (store.filter (fun a => decide (a.id ≠ aid))).length < store.length
  · rw [if_pos hlt]
    exact List.filter_sublist store
  · rw [if_neg hlt]

lemma applyOp_nodup (store : Store) (op : Op)
    (hnd : (store.map AgentConfig.id).Nodup)
    (hok : opFreshOk store op = true) :
    ((applyOp store op).map AgentConfig.id).Nodup := by
  cases op with
  | create c =>
    have hok' : c.id ∉ store.map AgentConfig.id := by
      simpa [opFreshOk] using hok
    simp only [applyOp, create_agent, List.map_append, List.map_cons,
      List.map_nil]
    rw [List.nodup_append]
    refine ⟨hnd, List.nodup_singleton _, ?_⟩
    intro a ha hb
    simp only [List.mem_singleton] at hb
    subst hb
    exact hok' ha
  | update aid kw => simpa [applyOp, update_agent_ids] using hnd
  | delete aid =>
    exact List.Nodup.sublist ((delete_agent_sublist aid store).map _) hnd
  | toggle aid => simpa [applyOp, toggle_agent_ids] using hnd

lemma applyOps_nodup (ops : List Op) (store : Store)
    (hnd : (store.map AgentConfig.id).Nodup)
    (hfresh : opsFresh store ops = true) :
    ((applyOps store ops).map AgentConfig.id).Nodup := by
  induction ops generalizing store with
  | nil => simpa [applyOps] using hnd
  | cons op rest ih =>
    simp only [opsFresh, Bool.and_eq_true] at hfresh
    have h1 := applyOp_nodup store op hnd hfresh.1
    have := ih (applyOp store op) h1 hfresh.2
    simpa [applyOps] using this

/-! ## Sample records used by the witness theorems -/

/-- A sample enabled record. -/
def agentA : AgentConfig :=
  ⟨"a1", "Alice", true, "google", "gemini-2.0-flash-exp", "Puck",
   "Hello! How can I help you today?", true, "", ""⟩

/-- A sample disabled record with a different id. -/
def agentB : AgentConfig :=
  ⟨"b2", "Bob", false, "openai", "gpt-4o", "alloy", "Yo", false, "", "m"⟩

/-- A record sharing `agentA`'s id (a duplicate-id store state). -/
def agentA2 : AgentConfig :=
  ⟨"a1", "Copy", true, "google", "gemini-1.5-pro", "Puck", "Hi", false, "", ""⟩

/-- A partial update supplying only `name`. -/
def kwNameX : UpdateKwargs :=
  ⟨some "X", none, none, none, none, none, none, none, none⟩

/-! ## Claims -/

/-- C1: for every store and every record matched by id (first match, ids of
earlier records differing), `update_agent` overwrites exactly the supplied
(non-`None`) fields of that record, leaves its other fields (including `id`)
and all other records unchanged, writes the file, and returns the updated
record; when no record has the given id it returns `None` and the file is
not written. -/
theorem update_agent_frame (fresh aid : String) (kw : UpdateKwargs)
    (store : Store) :
    ((∀ r ∈ store, r.id ≠ aid) →
      update_agent fresh aid kw store = (none, store, false))
    ∧ (∀ pre x post, store = pre ++ x :: post → (∀ y ∈ pre, y.id ≠ aid) →
        x.id = aid → aid ≠ "" →
        update_agent fresh aid kw store =
          (some (applyKwargs x kw), pre ++ applyKwargs x kw :: post, true)
        ∧ (applyKwargs x kw).id = x.id
        ∧ (kw.name = none → (applyKwargs x kw).name = x.name)
        ∧ (∀ v, kw.name = some v → (applyKwargs x kw).name = v)
        ∧ (kw.enabled = none → (applyKwargs x kw).enabled = x.enabled)
        ∧ (∀ v, kw.enabled = some v → (applyKwargs x kw).enabled = v)
        ∧ (kw.model_provider = none →
            (applyKwargs x kw).model_provider = x.model_provider)
        ∧ (∀ v, kw.model_provider = some v →
            (applyKwargs x kw).model_provider = v)
        ∧ (kw.model = none → (applyKwargs x kw).model = x.model)
        ∧ (∀ v, kw.model = some v → (applyKwargs x kw).model = v)
        ∧ (kw.voice = none → (applyKwargs x kw).voice = x.voice)
        ∧ (∀ v, kw.voice = some v → (applyKwargs x kw).voice = v)
        ∧ (kw.first_message = none →
            (applyKwargs x kw).first_message = x.first_message)
        ∧ (∀ v, kw.first_message = some v →
            (applyKwargs x kw).first_message = v)
        ∧ (kw.noise_cancellation = none →
            (applyKwargs x kw).noise_cancellation = x.noise_cancellation)
        ∧ (∀ v, kw.noise_cancellation = some v →
            (applyKwargs x kw).noise_cancellation = v)
        ∧ (kw.n8n_mcp_url = none →
            (applyKwargs x kw).n8n_mcp_url = x.n8n_mcp_url)
        ∧ (∀ v, kw.n8n_mcp_url = some v → (applyKwargs x kw).n8n_mcp_url = v)
        ∧ (kw.metadata = none → (applyKwargs x kw).metadata = x.metadata)
        ∧ (∀ v, kw.metadata = some v → (applyKwargs x kw).metadata = v)) := by
  constructor
  · exact update_agent_no_match fresh aid kw store
  · intro pre x post hsplit hpre hx haid
    subst hsplit
    have hmatch := update_agent_match fresh aid kw pre x post hpre hx
    have hid : (applyKwargs x kw).id ≠ "" := by
      rw [applyKwargs_id, hx]; exact haid
    rw [from_dict_of_id_ne fresh _ hid] at hmatch
    refine ⟨hmatch, applyKwargs_id x kw, ?_⟩
    repeat' constructor
    all_goals first
      | (intro h; simp [applyKwargs, h])
      | (intro v h; simp [applyKwargs, h])

/-- C1 witness: updating only `name` on a singleton store. -/
theorem update_agent_frame_witness :
    update_agent "f" "a1" kwNameX [agentA] =
      (some (applyKwargs agentA kwNameX), [applyKwargs agentA kwNameX], true)
    ∧ (applyKwargs agentA kwNameX).name = "X"
    ∧ (applyKwargs agentA kwNameX).voice = agentA.voice := by
  have h := (update_agent_frame "f" "a1" kwNameX [agentA]).2 [] agentA []
    rfl (by simp) (by decide) (by decide)
  exact ⟨h.1, h.2.2.2.1 "X" rfl, by decide⟩

/-- C2 counterexample: a file whose content is the syntactically valid JSON
document `[]` (a top-level array) makes `list_agents` raise an uncaught
`AttributeError` from `data.get("agents", [])`, so `listAll` does not return
a sequence for every file state. -/
theorem list_agents_file_raises_on_valid_array :
    list_agents_file (fun _ => "u") (.content (.arr [])) =
      .error .attributeError := rfl

/-- C2 (amended): when the file is missing or its content is syntactically
invalid, `listAll` returns the empty sequence instead of propagating the
parse error (while other file states, e.g. valid JSON whose top level is not
an object, can raise). -/
theorem list_agents_file_lenient (fresh : Nat → String) :
    list_agents_file fresh .missing = .ok []
    ∧ list_agents_file fresh .invalid = .ok [] := ⟨rfl, rfl⟩

/-- C3: `delete_agent` removes the record(s) matching the id and returns
`True` after writing the file, and a subsequent `get_agent` of that id
returns `None`; when no record matches it returns `False`, does not write,
and leaves the file unchanged. -/
theorem delete_then_get (fresh aid : String) (store : Store) :
    ((∃ r ∈ store, r.id = aid) →
      delete_agent aid store =
        (true, store.filter (fun a => a.id ≠ aid), true)
      ∧ get_agent fresh aid (delete_agent aid store).2.1 = none)
    ∧ ((∀ r ∈ store, r.id ≠ aid) →
      delete_agent aid store = (false, store, false)) := by
  constructor
  · intro h
    have hdel := delete_agent_of_mem aid store h
    refine ⟨hdel, ?_⟩
    rw [hdel]
    apply get_agent_no_match
    intro r hr
    have := List.of_mem_filter hr
    simpa using this
  · exact delete_agent_of_not_mem aid store

/-- C3 witness: deleting an existing id, then a missing one. -/
theorem delete_then_get_witness :
    delete_agent "a1" [agentA, agentB] = (true, [agentB], true)
    ∧ get_agent "f" "a1" (delete_agent "a1" [agentA, agentB]).2.1 = none
    ∧ delete_agent "zz" [agentA, agentB] = (false, [agentA, agentB], false) := by
  have h1 := (delete_then_get "f" "a1" [agentA, agentB]).1
    ⟨agentA, by simp, rfl⟩
  have h2 := (delete_then_get "f" "zz" [agentA, agentB]).2 (by decide)
  exact ⟨h1.1.trans (by decide), h1.2, h2⟩

/-- C4: `toggle_agent` on an id present in the store (first match) flips
exactly that record's `enabled` boolean and nothing else, and a second
toggle on the same id restores the original store. -/
theorem toggle_agent_flip (fresh fresh2 aid : String) (pre : Store)
    (x : AgentConfig) (post : Store) (hpre : ∀ y ∈ pre, y.id ≠ aid)
    (hx : x.id = aid) :
    toggle_agent fresh aid (pre ++ x :: post) =
      (some (AgentConfig.from_dict fresh { x with enabled := !x.enabled }),
       pre ++ { x with enabled := !x.enabled } :: post, true)
    ∧ (toggle_agent fresh2 aid
        (pre ++ { x with enabled := !x.enabled } :: post)).2.1 =
      pre ++ x :: post := by
  refine ⟨toggle_agent_match fresh aid pre x post hpre hx, ?_⟩
  have h2 := toggle_agent_match fresh2 aid pre { x with enabled := !x.enabled }
    post hpre hx
  rw [h2]
  simp

/-- C4 witness: two toggles on a concrete store restore it. -/
theorem toggle_agent_flip_witness :
    toggle_agent "f" "a1" [agentA, agentB] =
      (some (AgentConfig.from_dict "f" { agentA with enabled := !agentA.enabled }),
       [{ agentA with enabled := !agentA.enabled }, agentB], true)
    ∧ (toggle_agent "g" "a1"
        [{ agentA with enabled := !agentA.enabled }, agentB]).2.1 =
      [agentA, agentB] := by
  have h := toggle_agent_flip "f" "g" "a1" [] agentA [agentB]
    (by simp) (by decide)
  exact ⟨h.1, h.2⟩

/-- C5: creating a record whose (non-empty) id is not yet in the store
appends it at the end, writes the file, returns it unchanged, and a
subsequent `get_agent` of its id — directly or after a save/load round trip
through the file — returns a record equal to it in all fields. -/
theorem create_then_get (fresh : String) (store : Store) (r : AgentConfig)
    (hr : r.id ≠ "") (hnotin : ∀ x ∈ store, x.id ≠ r.id) :
    create_agent store r = (r, store ++ [r], true)
    ∧ get_agent fresh r.id (store ++ [r]) = some r
    ∧ get_agent_file fresh r.id (save_agents (store ++ [r])) =
        .ok (some r) := by
  refine ⟨rfl, ?_, ?_⟩
  · have h := get_agent_match fresh r.id store r [] hnotin rfl
    rwa [from_dict_of_id_ne fresh r hr] at h
  · have h := get_agent_file_save fresh r.id store r [] hnotin rfl
    rwa [from_dict_of_id_ne fresh r hr] at h

/-- C5 witness: create on a concrete store, then fetch, also from the saved
file. -/
theorem create_then_get_witness :
    create_agent [agentB] agentA = (agentA, [agentB, agentA], true)
    ∧ get_agent "f" "a1" [agentB, agentA] = some agentA
    ∧ get_agent_file "f" "a1" (save_agents [agentB, agentA]) =
        .ok (some agentA) := by
  have h := create_then_get "f" [agentB] agentA (by decide) (by decide)
  exact ⟨h.1, h.2.1, h.2.2⟩

/-- C6 counterexample: `create_agent` performs no uniqueness check, so a
single `create` whose record reuses an existing id turns a
pairwise-distinct store into one with a duplicated id. -/
theorem create_agent_duplicate_id :
    (([agentA] : Store).map AgentConfig.id).Nodup
    ∧ ¬ (((create_agent [agentA] agentA2).2.1).map AgentConfig.id).Nodup := by
  decide

/-- C6 (amended): update, delete, and toggle preserve pairwise-distinct
stored ids unconditionally; create preserves them provided the created
record's id is not already present at its point of execution (which the
store itself does not enforce — it relies on the controller's fresh uuid
assignment).  Stated over arbitrary operation sequences. -/
theorem ops_preserve_id_nodup (store : Store) (ops : List Op)
    (hnd : (store.map AgentConfig.id).Nodup)
    (hfresh : opsFresh store ops = true) :
    ((applyOps store ops).map AgentConfig.id).Nodup :=
  applyOps_nodup ops store hnd hfresh

/-- C6 witness: a concrete fresh-create/toggle/delete sequence keeps ids
distinct. -/
theorem ops_preserve_id_nodup_witness :
    opsFresh [agentA] [Op.create agentB, Op.toggle "a1", Op.delete "b2"] = true
    ∧ ((applyOps [agentA]
        [Op.create agentB, Op.toggle "a1", Op.delete "b2"]).map
          AgentConfig.id).Nodup :=
  ⟨by decide,
   ops_preserve_id_nodup [agentA]
     [Op.create agentB, Op.toggle "a1", Op.delete "b2"] (by decide) (by decide)⟩

/-- C7: the stored sequence keeps insertion order: create appends at the
end; update and toggle mutate the matched record in place; delete keeps the
remaining records in relative order (the result is a sublist); saving and
reloading yields the same sequence in the same order (for records with
non-empty ids, as generated). -/
theorem order_preserved (fresh aid : String) (kw : UpdateKwargs)
    (store : Store) (c x : AgentConfig) (pre post : Store)
    (freshSeq : Nat → String) :
    (create_agent store c).2.1 = store ++ [c]
    ∧ ((∀ y ∈ pre, y.id ≠ aid) → x.id = aid →
        (update_agent fresh aid kw (pre ++ x :: post)).2.1 =
          pre ++ applyKwargs x kw :: post
        ∧ (toggle_agent fresh aid (pre ++ x :: post)).2.1 =
          pre ++ { x with enabled := !x.enabled } :: post)
    ∧ ((delete_agent aid store).2.1).Sublist store
    ∧ ((∀ z ∈ store, z.id ≠ "") →
        list_agents_file freshSeq (save_agents store) = .ok store) := by
  refine ⟨rfl, ?_, delete_agent_sublist aid store,
    list_agents_file_save freshSeq store⟩
  intro hpre hx
  constructor
  · simp [update_agent_match fresh aid kw pre x post hpre hx]
  · simp [toggle_agent_match fresh aid pre x post hpre hx]

/-- C7 witness: order preservation on a concrete two-record store. -/
theorem order_preserved_witness :
    (create_agent [agentA, agentB] agentB).2.1 = [agentA, agentB, agentB]
    ∧ (update_agent "f" "a1" kwNameX [agentA, agentB]).2.1 =
        [applyKwargs agentA kwNameX, agentB]
    ∧ (toggle_agent "f" "a1" [agentA, agentB]).2.1 =
        [{ agentA with enabled := !agentA.enabled }, agentB]
    ∧ ((delete_agent "a1" [agentA, agentB]).2.1).Sublist [agentA, agentB]
    ∧ list_agents_file (fun _ => "u") (save_agents [agentA, agentB]) =
        .ok [agentA, agentB] := by
  have h := order_preserved "f" "a1" kwNameX [agentA, agentB] agentB agentA
    [] [agentB] (fun _ => "u")
  have hm := h.2.1 (by simp) (by decide)
  exact ⟨h.1, hm.1, hm.2, h.2.2.1, h.2.2.2 (by decide)⟩

/-- C8: the test route on an id matching no record answers the
"Agent not found" error flash redirect, and on a matched but disabled
record answers an error flash redirect whose URL contains "disabled"; in
both cases it makes zero calls to the external real-time client. -/
theorem test_agent_guards (fresh aid roomSuffix : String) (store : Store)
    (lk : LKClient) :
    (get_agent fresh aid store = none →
      test_agent_route fresh store aid roomSuffix lk =
        (.redirect (flashUrl "Agent not found" "error"), 0))
    ∧ (∀ a, get_agent fresh aid store = some a → a.enabled = false →
      test_agent_route fresh store aid roomSuffix lk =
        (.redirect
          (flashUrl "Agent is disabled. Enable it first to test." "error"), 0)
      ∧ ∃ p q, flashUrl "Agent is disabled. Enable it first to test." "error" =
          p ++ "disabled" ++ q) := by
  constructor
  · intro h
    simp [test_agent_route, h]
  · intro a h hen
    refine ⟨by simp [test_agent_route, h, hen], ?_⟩
    exact ⟨"/agents?flash_message=Agent%20is%20",
      ".%20Enable%20it%20first%20to%20test.&flash_type=error", by decide⟩

/-- A trivial concrete external client for the C8 witness. -/
def lkDemo : LKClient := ⟨fun _ _ _ _ => "room", fun _ _ _ _ => "token"⟩

/-- C8 witness: unknown id and disabled record on a concrete store. -/
theorem test_agent_guards_witness :
    test_agent_route "f" [agentB] "zz" "r" lkDemo =
      (.redirect (flashUrl "Agent not found" "error"), 0)
    ∧ test_agent_route "f" [agentB] "b2" "r" lkDemo =
      (.redirect
        (flashUrl "Agent is disabled. Enable it first to test." "error"), 0) := by
  have h1 := (test_agent_guards "f" "zz" "r" [agentB] lkDemo).1 (by decide)
  have h2 := ((test_agent_guards "f" "b2" "r" [agentB] lkDemo).2 agentB
    (by decide) rfl).1
  exact ⟨h1, h2⟩

/-- C9: a single `delete_agent` call removes every record whose id equals
the given id — not just the first match — and returns `True` exactly when
at least one record was removed. -/
theorem delete_agent_removes_all (aid : String) (store : Store) :
    (delete_agent aid store).2.1 = store.filter (fun a => a.id ≠ aid)
    ∧ (∀ r ∈ (delete_agent aid store).2.1, r.id ≠ aid)
    ∧ ((delete_agent aid store).1 = true ↔ ∃ r ∈ store, r.id = aid) := by
  by_cases h : ∃ r ∈ store, r.id = aid
  · have hdel := delete_agent_of_mem aid store h
    rw [hdel]
    refine ⟨rfl, ?_, by simpa using h⟩
    intro r hr
    have := List.of_mem_filter hr
    simpa using this
  · push_neg at h
    have hdel := delete_agent_of_not_mem aid store h
    rw [hdel]
    have hself : store.filter (fun a => a.id ≠ aid) = store :=
      List.filter_eq_self.mpr (by intro a ha; simpa using h a ha)
    refine ⟨hself.symm, fun r hr => h r hr, ?_⟩
    simpa using h

/-- C9 witness: a store holding two records with id "a1"; one delete call
removes both. -/
theorem delete_agent_removes_all_witness :
    (delete_agent "a1" [agentA, agentB, agentA2]).2.1 = [agentB]
    ∧ (delete_agent "a1" [agentA, agentB, agentA2]).1 = true := by
  have h := delete_agent_removes_all "a1" [agentA, agentB, agentA2]
  exact ⟨h.1.trans (by decide), h.2.2.mpr ⟨agentA, by simp, rfl⟩⟩

/-- C10: constructing an `AgentConfig` — also through `from_dict` on load —
with an absent, `None`, or empty-string id assigns the freshly generated
(non-empty) uuid instead; hence a stored record whose id field is the empty
string comes back from each load with a newly generated id, not with its
stored id. -/
theorem id_regenerated (fresh f1 f2 : String) (nm : String) (en : Bool)
    (mp mo vo fm : String) (nc : Bool) (n8 md : String) (d : AgentConfig) :
    (AgentConfig.init fresh none nm en mp mo vo fm nc n8 md).id = fresh
    ∧ (AgentConfig.init fresh (some "") nm en mp mo vo fm nc n8 md).id = fresh
    ∧ (∀ s, s ≠ "" →
        (AgentConfig.init fresh (some s) nm en mp mo vo fm nc n8 md).id = s)
    ∧ (d.id = "" →
        AgentConfig.from_dict f1 d = { d with id := f1 }
        ∧ (f1 ≠ "" → (AgentConfig.from_dict f1 d).id ≠ d.id)
        ∧ (f1 ≠ f2 →
            (AgentConfig.from_dict f1 d).id ≠ (AgentConfig.from_dict f2 d).id)
        ∧ list_agents_file (fun _ => f1) (save_agents [d]) =
            .ok [{ d with id := f1 }])
    ∧ (fresh ≠ "" →
        (AgentConfig.init fresh none nm en mp mo vo fm nc n8 md).id ≠ "") := by
  refine ⟨rfl, by simp [AgentConfig.init],
    fun s hs => by simp [AgentConfig.init, hs], ?_, fun h => h⟩
  intro hid
  have hfd : ∀ g : String, AgentConfig.from_dict g d = { d with id := g } := by
    intro g
    simp [AgentConfig.from_dict, AgentConfig.init, hid]
  refine ⟨hfd f1, ?_, ?_, ?_⟩
  · intro h1
    rw [hfd f1, hid]
    simpa using h1
  · intro hne
    rw [hfd f1, hfd f2]
    simpa using hne
  · simp [list_agents_file, save_agents, load_agents, jsonLookup, pyIter,
      mapOfJson, ofJson_to_dict, hfd f1, bind, Except.bind]

/-- C10 witness: a stored record with empty id gets the fresh id on load. -/
theorem id_regenerated_witness :
    (AgentConfig.init "u1" none "N" true "google" "m" "v" "fm" true "" "").id
      = "u1"
    ∧ AgentConfig.from_dict "u1" { agentA with id := "" } =
        { agentA with id := "u1" }
    ∧ list_agents_file (fun _ => "u1") (save_agents [{ agentA with id := "" }])
        = .ok [{ agentA with id := "u1" }] := by
  have h := id_regenerated "u1" "u1" "u2" "N" true "google" "m" "v" "fm"
    true "" "" { agentA with id := "" }
  have h4 := h.2.2.2.1 rfl
  exact ⟨h.1, h4.1, h4.2.2.2⟩
